import Mathlib

/-!
Verification of the Rustyfin media server against its specification.

Shallow embedding of the relevant Rust sources:
  * crates/server/src/streaming.rs   — Range header parsing and the range branch
    of the stream_file_range handler
  * crates/transcoder/src/decision.rs — play-decision engine
  * crates/scanner/src/parser.rs      — filename parsing (video extensions,
    episode/movie patterns)
  * crates/scanner/src/scan.rs        — library scan over a fixed walk result
  * crates/transcoder/src/session.rs  — transcode session manager admission
  * crates/db/src/repo/playstate.rs   — progress upsert
  * crates/db/src/repo/jobs.rs        — job cancellation

Modelling conventions: Rust u64/u32/u16 values are Nat with explicit bounds
where an overflow matters; checked (debug-mode) arithmetic is modelled by
`checkedSub`, whose `none` result denotes an arithmetic-underflow panic;
`saturating_sub` is Nat subtraction (which saturates at 0); database tables
are lists of row structures; UUIDs and SQLite rowids are modelled by a
fresh-id counter; `chrono::Utc::now` timestamps are explicit parameters.
Rust string handling is modelled on `List Char`; `\d` and case folding are
modelled on ASCII (all inputs of interest are ASCII).
-/

namespace Rustyfin

/-- Lowercase one ASCII letter, leave every other character unchanged
(Rust `eq_ignore_ascii_case` / `to_ascii_lowercase` semantics). -/
def asciiLower (c : Char) : Char :=
  if 'A' ≤ c ∧ c ≤ 'Z' then Char.ofNat (c.toNat + 32) else c

/-- Numeric value of a decimal-digit string (used for regex capture groups). -/
def digitsVal (ds : List Char) : Nat :=
  ds.foldl (fun a c => a * 10 + (c.toNat - 48)) 0

/-- Model of Rust `str::parse::<uN>`: optional leading '+', one or more ASCII
digits, value below 2^bits; anything else is a parse error. -/
def parseUInt (bits : Nat) (cs : List Char) : Option Nat :=
  let ds := match cs with
    | '+' :: rest => rest
    | _ => cs
  if ds.isEmpty then none
  else if ds.all (·.isDigit) then
    let v := digitsVal ds
    if v < 2 ^ bits then some v else none
  else none

/-- Rust `u64::from_str`. -/
def parseU64 (cs : List Char) : Option Nat := parseUInt 64 cs

/-- Rust `u32::from_str`. -/
def parseU32 (cs : List Char) : Option Nat := parseUInt 32 cs

/-- Checked subtraction: `none` models a Rust debug-mode underflow panic. -/
def checkedSub (a b : Nat) : Option Nat :=
  if b ≤ a then some (a - b) else none

/-- Rust `str::trim` on a character list (ASCII whitespace model). -/
def trimChars (cs : List Char) : List Char :=
  ((cs.dropWhile Char.isWhitespace).reverse.dropWhile Char.isWhitespace).reverse

namespace Streaming

/-- Model of `splitn(2, '-')` from streaming.rs line 35: the text before the
first '-' and the text after it (empty when there is no '-', matching the
source's `unwrap_or("")`). -/
def splitOnceDash : List Char → List Char × List Char
  | [] => ([], [])
  | '-' :: rest => ([], rest)
  | c :: rest =>
    let p := splitOnceDash rest
    (c :: p.1, p.2)

/-- Result of `parse_range_header`: a byte range, a `BadRequest` error, or an
arithmetic-underflow panic (debug-mode Rust). -/
inductive RangeResult
  | ok (start endInclusive : Nat)
  | err
  | panic
  deriving Repr, DecidableEq

/-- End-of-range computation from streaming.rs lines 55-61: open-ended ranges
use `file_size - 1` (checked), otherwise the text must parse as u64. -/
def computeEnd (endS : List Char) (fileSize : Nat) : RangeResult ⊕ Nat :=
  if endS.isEmpty then
    match checkedSub fileSize 1 with
    | none => Sum.inl RangeResult.panic
    | some e => Sum.inr e
  else
    match parseU64 endS with
    | none => Sum.inl RangeResult.err
    | some e => Sum.inr e

/-- Embedding of `parse_range_header` (streaming.rs lines 22-80) on character
lists. Mirrors the source exactly: trim; require the `bytes=` prefix; reject
multi-range; suffix ranges (`bytes=-n`) return early with
`start = file_size.saturating_sub(n)` and `end = file_size - 1` without any
validation; otherwise parse start, compute end, reject `start >= file_size`,
clamp end to `file_size - 1`, and reject `start > end`. -/
def parseRangeChars (cs : List Char) (fileSize : Nat) : RangeResult :=
  let cs := trimChars cs
  if ("bytes=".toList).isPrefixOf cs then
    let spec := cs.drop 6
    if spec.contains ',' then RangeResult.err
    else
      let p := splitOnceDash spec
      let startS := p.1
      let endS := p.2
      if startS.isEmpty then
        match parseU64 endS with
        | none => RangeResult.err
        | some suffix =>
          match checkedSub fileSize 1 with
          | none => RangeResult.panic
          | some lastByte => RangeResult.ok (fileSize - suffix) lastByte
      else
        match parseU64 startS with
        | none => RangeResult.err
        | some start =>
          match computeEnd endS fileSize with
          | Sum.inl r => r
          | Sum.inr e =>
            if fileSize ≤ start then RangeResult.err
            else
              match checkedSub fileSize 1 with
              | none => RangeResult.panic
              | some lastByte =>
                let e2 := min e lastByte
                if e2 < start then RangeResult.err
                else RangeResult.ok start e2
  else RangeResult.err

/-- Embedding of `parse_range_header` on Lean strings. -/
def parse_range_header (r : String) (fileSize : Nat) : RangeResult :=
  parseRangeChars r.toList fileSize

/-- Observable part of an HTTP response of the range branch of
`stream_file_range`: status, Content-Range header, body emptiness. -/
structure RangeBranchResponse where
  status : Nat
  contentRange : Option String
  bodyEmpty : Bool
  deriving Repr, DecidableEq

/-- Result of the handler's range branch: a response, or a panic (the
`content_length` subtraction on an inverted range underflows). -/
inductive HandlerResult
  | resp (r : RangeBranchResponse)
  | panicked
  deriving Repr, DecidableEq

/-- Content-Range value sent with 416 responses. -/
def contentRangeUnsat (fileSize : Nat) : String :=
  "bytes */" ++ toString fileSize

/-- Embedding of the Range branch of `stream_file_range` (streaming.rs lines
180-222): any `parse_range_header` error is answered with 416, a
`Content-Range: bytes */size` header and an empty body; a parsed range is
answered with 206, `Content-Length = end - start + 1` (checked subtraction)
and `Content-Range: bytes start-end/size`. The handler never answers 400 to
a present Range header. -/
def streamRangeResponse (header : String) (fileSize : Nat) : HandlerResult :=
  match parse_range_header header fileSize with
  | RangeResult.panic => HandlerResult.panicked
  | RangeResult.err =>
    HandlerResult.resp
      { status := 416
        contentRange := some (contentRangeUnsat fileSize)
        bodyEmpty := true }
  | RangeResult.ok s e =>
    match checkedSub e s with
    | none => HandlerResult.panicked
    | some _ =>
      HandlerResult.resp
        { status := 206
          contentRange := some
            ("bytes " ++ toString s ++ "-" ++ toString e ++ "/" ++ toString fileSize)
          bodyEmpty := false }

end Streaming

namespace Decision

/-- Rust `str::contains(&str)`: substring containment on character lists. -/
def containsSubstr (hay needle : List Char) : Bool :=
  hay.tails.any (fun t => needle.isPrefixOf t)

/-- Rust `str::eq_ignore_ascii_case`. -/
def eqIgnoreAsciiCase (a b : List Char) : Bool :=
  a.map Rustyfin.asciiLower == b.map Rustyfin.asciiLower

/-- Video stream fields read by `decide` (ffprobe.rs `VideoStream`; the
`index` and float `framerate` fields are never read by the decision engine
and are omitted). -/
structure VideoStream where
  codec : String
  width : Nat
  height : Nat
  bitrate_kbps : Option Nat
  deriving Repr, DecidableEq

/-- Audio stream fields read by `decide` (ffprobe.rs `AudioStream`;
`channels`, `language`, `title`, `is_default` are never read by the decision
engine and are omitted). -/
structure AudioStream where
  codec : String
  deriving Repr, DecidableEq

/-- Media info fields read by `decide` (ffprobe.rs `MediaInfo`; the float
`duration_secs`, overall `bitrate_kbps` and `subtitles` are never read by
the decision engine and are omitted). -/
structure MediaInfo where
  container : String
  video : Option VideoStream
  audio : List AudioStream
  deriving Repr, DecidableEq

/-- Embedding of `ClientCaps` (decision.rs lines 7-14). -/
structure ClientCaps where
  containers : List String
  video_codecs : List String
  audio_codecs : List String
  max_bitrate_kbps : Option Nat
  max_width : Option Nat
  max_height : Option Nat
  deriving Repr, DecidableEq

/-- Embedding of `PlayMethod` (decision.rs lines 42-46). -/
inductive PlayMethod
  | DirectPlay
  | Remux
  | Transcode
  deriving Repr, DecidableEq

/-- Embedding of `TranscodeReason` (decision.rs lines 49-55). -/
inductive TranscodeReason
  | ContainerNotSupported
  | VideoCodecNotSupported
  | AudioCodecNotSupported
  | VideoBitrateTooHigh
  | VideoResolutionTooHigh
  deriving Repr, DecidableEq

/-- Embedding of `PlayDecision` (decision.rs lines 58-63). -/
structure PlayDecision where
  method : PlayMethod
  reasons : List TranscodeReason
  transcode_video : Bool
  transcode_audio : Bool
  deriving Repr, DecidableEq

/-- Reason / flag accumulation of `decide` (decision.rs lines 67-122),
returning `(reasons, transcode_video, transcode_audio)` in the order the
source pushes them. -/
def decideFlags (media : MediaInfo) (caps : ClientCaps) :
    List TranscodeReason × Bool × Bool :=
  let containerOk :=
    caps.containers.any (fun c => containsSubstr media.container.toList c.toList)
  let reasons : List TranscodeReason :=
    if containerOk then [] else [TranscodeReason.ContainerNotSupported]
  let rv : List TranscodeReason × Bool :=
    match media.video with
    | none => (reasons, false)
    | some v =>
      let codecOk :=
        caps.video_codecs.any (fun c => eqIgnoreAsciiCase c.toList v.codec.toList)
      let rt : List TranscodeReason × Bool :=
        if codecOk then (reasons, false)
        else (reasons ++ [TranscodeReason.VideoCodecNotSupported], true)
      let rt : List TranscodeReason × Bool :=
        match caps.max_bitrate_kbps, v.bitrate_kbps with
        | some maxBr, some vbr =>
          if vbr > maxBr then (rt.1 ++ [TranscodeReason.VideoBitrateTooHigh], true)
          else rt
        | _, _ => rt
      let rt : List TranscodeReason × Bool :=
        match caps.max_width with
        | some maxW =>
          if v.width > maxW then (rt.1 ++ [TranscodeReason.VideoResolutionTooHigh], true)
          else rt
        | none => rt
      let rt : List TranscodeReason × Bool :=
        match caps.max_height with
        | some maxH =>
          if v.height > maxH then
            (if rt.1.contains TranscodeReason.VideoResolutionTooHigh then
              (rt.1, true)
            else (rt.1 ++ [TranscodeReason.VideoResolutionTooHigh], true))
          else rt
        | none => rt
      rt
  let ra : List TranscodeReason × Bool :=
    match media.audio.head? with
    | none => (rv.1, false)
    | some a =>
      let codecOk :=
        caps.audio_codecs.any (fun c => eqIgnoreAsciiCase c.toList a.codec.toList)
      if codecOk then (rv.1, false)
      else (rv.1 ++ [TranscodeReason.AudioCodecNotSupported], true)
  (ra.1, rv.2, ra.2)

/-- Method selection of `decide` (decision.rs lines 124-131). -/
def methodFor (reasons : List TranscodeReason) (tv ta : Bool) : PlayMethod :=
  if reasons.isEmpty then PlayMethod.DirectPlay
  else if !tv && !ta then PlayMethod.Remux
  else PlayMethod.Transcode

/-- Embedding of `decide` (decision.rs lines 66-139). -/
def decide (media : MediaInfo) (caps : ClientCaps) : PlayDecision :=
  let f := decideFlags media caps
  { method := methodFor f.1 f.2.1 f.2.2
    reasons := f.1
    transcode_video := f.2.1
    transcode_audio := f.2.2 }

/-- Embedding of `ClientCaps::default` (decision.rs lines 16-39). -/
def defaultCaps : ClientCaps :=
  { containers := ["mp4", "matroska", "webm", "mov"]
    video_codecs := ["h264", "hevc", "vp9", "av1"]
    audio_codecs := ["aac", "mp3", "opus", "ac3", "eac3", "flac"]
    max_bitrate_kbps := none
    max_width := none
    max_height := none }

/-- The media fixture of the decision.rs unit tests (`test_media`). -/
def testMedia : MediaInfo :=
  { container := "matroska,webm"
    video := some { codec := "h264", width := 1920, height := 1080,
                    bitrate_kbps := some 4000 }
    audio := [{ codec := "aac" }] }

end Decision

namespace Parser

/-- Embedding of `MovieInfo` (parser.rs lines 6-9); `year` is a u16. -/
structure MovieInfo where
  title : String
  year : Option Nat
  deriving Repr, DecidableEq

/-- Embedding of `EpisodeInfo` (parser.rs lines 13-18); season/episode are u32. -/
structure EpisodeInfo where
  series_title : String
  season : Nat
  episode : Nat
  episode_title : Option String
  deriving Repr, DecidableEq

/-- Embedding of `ParsedMedia` (parser.rs lines 22-26). -/
inductive ParsedMedia
  | Movie (info : MovieInfo)
  | Episode (info : EpisodeInfo)
  | Unknown (name : String)
  deriving Repr, DecidableEq

/-- Embedding of `IGNORE_NAMES` (parser.rs lines 29-43). -/
def IGNORE_NAMES : List String :=
  [".DS_Store", "Thumbs.db", "@eaDir", ".nfo", ".txt", ".jpg", ".jpeg",
   ".png", ".srt", ".sub", ".idx", ".ass", ".ssa"]

/-- Embedding of `VIDEO_EXTENSIONS` (parser.rs lines 45-47): exactly the 13
extensions listed in the source. -/
def VIDEO_EXTENSIONS : List String :=
  ["mkv", "mp4", "avi", "m4v", "mov", "wmv", "flv", "webm", "ts", "mpg",
   "mpeg", "3gp", "ogv"]

/-- ASCII lowercase of a character list (model of Rust `to_lowercase` on the
ASCII inputs of interest). -/
def lowerList (cs : List Char) : List Char := cs.map Rustyfin.asciiLower

/-- Model of `filename.rsplit(sep).next()`: the text after the last
occurrence of `sep` (the whole text when `sep` is absent). -/
def afterLastSep (sep : Char) (cs : List Char) : List Char :=
  ((cs.reverse.takeWhile (fun c => c ≠ sep))).reverse

/-- Embedding of `should_ignore` (parser.rs lines 79-84). -/
def should_ignore (filename : String) : Bool :=
  let lower := lowerList filename.toList
  IGNORE_NAMES.any (fun pat =>
    lower == lowerList pat.toList || (lowerList pat.toList).isSuffixOf lower)

/-- Embedding of `is_video_file` (parser.rs lines 87-93): the extension is
the text after the last '.', lowercased, and must be in `VIDEO_EXTENSIONS`. -/
def is_video_file (filename : String) : Bool :=
  VIDEO_EXTENSIONS.contains
    (String.mk (lowerList (afterLastSep '.' filename.toList)))

/-- Embedding of `clean_title` (parser.rs lines 104-109): replace '.' and '_'
by spaces, trim. -/
def clean_title (raw : List Char) : String :=
  String.mk (Rustyfin.trimChars (raw.map (fun c =>
    if c = '.' then ' ' else if c = '_' then ' ' else c)))

/-- Candidate splits for a greedy bounded repetition `\d{lo,hi}` at the head
of `cs`: the digit prefix and the rest, longest first (regex backtracking
preference order). -/
def digitTakes (lo hi : Nat) (cs : List Char) : List (List Char × List Char) :=
  let run := (cs.takeWhile (·.isDigit)).length
  let k := min hi run
  if k < lo then []
  else (List.range (k + 1 - lo)).map (fun j => (cs.take (k - j), cs.drop (k - j)))

/-- Match of `(?i)[Ss](\d{1,2})[Ee](\d{1,3})` anchored at the head of `cs`:
returns `(season, episode, match length)`. The two capture groups have at
most 2 and 3 digits, so the source's `u32` parse of them cannot fail. -/
def matchSEAt (cs : List Char) : Option (Nat × Nat × Nat) :=
  match cs with
  | [] => none
  | s :: rest =>
    if s = 'S' ∨ s = 's' then
      (digitTakes 1 2 rest).findSome? (fun p =>
        match p.2 with
        | [] => none
        | e :: r2 =>
          if e = 'E' ∨ e = 'e' then
            (digitTakes 1 3 r2).findSome? (fun q =>
              some (Rustyfin.digitsVal p.1, Rustyfin.digitsVal q.1,
                    1 + p.1.length + 1 + q.1.length))
          else none)
    else none

/-- Match of `(?i)(\d{1,2})[xX](\d{2,3})` anchored at the head of `cs`:
returns `(season, episode, match length)`. -/
def matchXepAt (cs : List Char) : Option (Nat × Nat × Nat) :=
  (digitTakes 1 2 cs).findSome? (fun p =>
    match p.2 with
    | [] => none
    | x :: r2 =>
      if x = 'x' ∨ x = 'X' then
        (digitTakes 2 3 r2).findSome? (fun q =>
          some (Rustyfin.digitsVal p.1, Rustyfin.digitsVal q.1,
                p.1.length + 1 + q.1.length))
      else none)

/-- Case-insensitive ASCII literal match at the head of `cs`; `lit` is given
lowercased. Returns the rest on success. -/
def matchCaselessLit : List Char → List Char → Option (List Char)
  | [], cs => some cs
  | _ :: _, [] => none
  | l :: ls, c :: cs =>
    if Rustyfin.asciiLower c = l then matchCaselessLit ls cs else none

/-- Match of `(?i)Season\s+(\d+)\s+Episode\s+(\d+)` anchored at the head of
`cs`: returns the two digit capture groups and the match length. `\s+` and
`\d+` are maximal runs (no backtracking is possible because the following
atoms are disjoint from the classes). -/
def matchSeasonEpAt (cs : List Char) : Option (List Char × List Char × Nat) :=
  match matchCaselessLit "season".toList cs with
  | none => none
  | some r1 =>
    let w1 := r1.takeWhile Char.isWhitespace
    if w1.isEmpty then none
    else
      let r2 := r1.drop w1.length
      let d1 := r2.takeWhile (·.isDigit)
      if d1.isEmpty then none
      else
        let r3 := r2.drop d1.length
        let w2 := r3.takeWhile Char.isWhitespace
        if w2.isEmpty then none
        else
          let r4 := r3.drop w2.length
          match matchCaselessLit "episode".toList r4 with
          | none => none
          | some r5 =>
            let w3 := r5.takeWhile Char.isWhitespace
            if w3.isEmpty then none
            else
              let r6 := r5.drop w3.length
              let d2 := r6.takeWhile (·.isDigit)
              if d2.isEmpty then none
              else
                some (d1, d2,
                  6 + w1.length + d1.length + w2.length + 7 + w3.length + d2.length)

/-- Leftmost match search: try `matchAt` at each position from the left;
on success return `(text before the match, payload, text after the match)`.
This is the `Regex::captures` leftmost semantics for the episode patterns. -/
def findLeftmost {α : Type} (matchAt : List Char → Option (α × Nat)) :
    List Char → List Char → Option (List Char × α × List Char)
  | _, [] => none
  | pre, c :: rest =>
    match matchAt (c :: rest) with
    | some (a, len) => some (pre.reverse, a, (c :: rest).drop len)
    | none => findLeftmost matchAt (c :: pre) rest

/-- Leftmost match of the SxxExx pattern over a stem:
`(before, (season, episode), after)`. -/
def findSE (stem : List Char) : Option (List Char × (Nat × Nat) × List Char) :=
  findLeftmost (fun cs =>
    match matchSEAt cs with
    | some (s, e, len) => some ((s, e), len)
    | none => none) [] stem

/-- Leftmost match of the NxNN pattern over a stem. -/
def findXep (stem : List Char) : Option (List Char × (Nat × Nat) × List Char) :=
  findLeftmost (fun cs =>
    match matchXepAt cs with
    | some (s, e, len) => some ((s, e), len)
    | none => none) [] stem

/-- Leftmost match of the `Season N Episode M` pattern over a stem; the
payload keeps the raw digit captures (they can overflow u32). -/
def findSeasonEp (stem : List Char) :
    Option (List Char × (List Char × List Char) × List Char) :=
  findLeftmost (fun cs =>
    match matchSeasonEpAt cs with
    | some (d1, d2, len) => some ((d1, d2), len)
    | none => none) [] stem

/-- Episode-title rule of the SxxExx branch (parser.rs lines 153-159): taken
from the text right of the match only when that raw text is longer than one
character; leading '-', '.', ' ', '_' are trimmed, the result is cleaned and
dropped if empty. -/
def episodeTitleAfterSE (after : List Char) : Option String :=
  if after.length > 1 then
    let t := clean_title (after.dropWhile (fun c =>
      c = '-' ∨ c = '.' ∨ c = ' ' ∨ c = '_'))
    if t = "" then none else some t
  else none

/-- Embedding of `try_parse_episode` (parser.rs lines 145-199): the three
patterns are tried in order; only the SxxExx branch extracts an episode
title; the other two branches always leave it `None`. A failing `u32` parse
of a capture (possible only for the unbounded digits of the third pattern)
aborts the whole function via `?`. -/
def try_parse_episode (stem : List Char) : Option EpisodeInfo :=
  match findSE stem with
  | some (pre, (s, e), after) =>
    some { series_title := clean_title pre
           season := s
           episode := e
           episode_title := episodeTitleAfterSE after }
  | none =>
  match findXep stem with
  | some (pre, (s, e), _) =>
    some { series_title := clean_title pre
           season := s
           episode := e
           episode_title := none }
  | none =>
  match findSeasonEp stem with
  | some (pre, (d1, d2), _) =>
    match Rustyfin.parseU32 d1, Rustyfin.parseU32 d2 with
    | some s, some e =>
      some { series_title := clean_title pre
             season := s
             episode := e
             episode_title := none }
    | _, _ => none
  | none => none

/-- Match of `\s*\((\d{4})\)` anchored at the head of `cs` (the tail of
`RE_MOVIE_YEAR_PAREN` after the lazy group): maximal whitespace, then a
parenthesised 4-digit year. -/
def matchParenYearTail (cs : List Char) : Option Nat :=
  match cs.dropWhile Char.isWhitespace with
  | '(' :: d1 :: d2 :: d3 :: d4 :: ')' :: _ =>
    if d1.isDigit ∧ d2.isDigit ∧ d3.isDigit ∧ d4.isDigit then
      some (Rustyfin.digitsVal [d1, d2, d3, d4])
    else none
  | _ => none

/-- Match of `[\.\s](\d{4})(?:[\.\s]|$)` anchored at the head of `cs` (the
tail of `RE_MOVIE_YEAR_DOT` after the lazy group). -/
def matchDotYearTail (cs : List Char) : Option Nat :=
  match cs with
  | c :: d1 :: d2 :: d3 :: d4 :: tail =>
    if (c = '.' ∨ c.isWhitespace) ∧ d1.isDigit ∧ d2.isDigit ∧ d3.isDigit ∧
        d4.isDigit ∧
        (tail = [] ∨ (tail.head?.any (fun t => t = '.' ∨ t.isWhitespace))) then
      some (Rustyfin.digitsVal [d1, d2, d3, d4])
    else none
  | _ => none

/-- Anchored lazy-prefix search for `^(.+?)<tail>`: try prefix lengths from 1
upward (lazy `+?` preference); prefix characters must not be '\n' (regex '.'
without the `s` flag). Returns `(capture 1, tail payload)`. -/
def scanLazyPrefix {α : Type} (tail : List Char → Option α) :
    List Char → List Char → Option (List Char × α)
  | _, [] => none
  | pre, c :: rest =>
    if c = '\n' then none
    else
      match tail rest with
      | some a => some ((c :: pre).reverse, a)
      | none => scanLazyPrefix tail (c :: pre) rest

/-- Embedding of `try_parse_movie` (parser.rs lines 201-225): the
`Title (Year)` pattern first (year always parses as u16: 4 digits), then the
`Title.Year` pattern with the year accepted only in `[1900, 2100]`. -/
def try_parse_movie (stem : List Char) : Option MovieInfo :=
  match scanLazyPrefix matchParenYearTail [] stem with
  | some (pre, y) => some { title := clean_title pre, year := some y }
  | none =>
    match scanLazyPrefix matchDotYearTail [] stem with
    | some (pre, y) =>
      if 1900 ≤ y ∧ y ≤ 2100 then some { title := clean_title pre, year := some y }
      else none
    | none => none

/-- Stem computation of `parse_filename` (parser.rs lines 113-126): last
'/'-component, then last '\\'-component, then drop the extension after the
last '.' when one exists. -/
def stemOf (filename : List Char) : List Char :=
  let s := afterLastSep '\\' (afterLastSep '/' filename)
  if s.contains '.' then ((s.reverse.dropWhile (fun c => c ≠ '.')).drop 1).reverse
  else s

/-- Embedding of `parse_filename` (parser.rs lines 112-143): episode patterns
first, then movie patterns, then the fallback movie with a cleaned title and
no year. The `Unknown` constructor is never produced. -/
def parse_filename (filename : List Char) : ParsedMedia :=
  let stem := stemOf filename
  match try_parse_episode stem with
  | some ep => ParsedMedia.Episode ep
  | none =>
    match try_parse_movie stem with
    | some m => ParsedMedia.Movie m
    | none => ParsedMedia.Movie { title := clean_title stem, year := none }

/-- Match of `\[(\w+)=([^\]]+)\]` anchored at the head of `cs`: returns the
two captures and the rest after the match. -/
def matchProviderTagAt (cs : List Char) :
    Option (List Char × List Char × List Char) :=
  match cs with
  | '[' :: r1 =>
    let w := r1.takeWhile (fun c => c.isAlphanum ∨ c = '_')
    if w.isEmpty then none
    else
      match r1.drop w.length with
      | '=' :: r2 =>
        let v := r2.takeWhile (fun c => c ≠ ']')
        if v.isEmpty then none
        else
          match r2.drop v.length with
          | ']' :: r3 => some (w, v, r3)
          | _ => none
      | _ => none
  | _ => none

/-- Embedding of `extract_provider_ids` (parser.rs lines 96-101):
non-overlapping leftmost matches of the provider-tag pattern; the provider
capture is lowercased. Fuel is the list length (every step consumes at least
one character, so it never runs out). -/
def extractTagsAux : Nat → List Char → List (String × String)
  | 0, _ => []
  | _, [] => []
  | fuel + 1, c :: rest =>
    match matchProviderTagAt (c :: rest) with
    | some (w, v, r3) =>
      (String.mk (lowerList w), String.mk v) :: extractTagsAux fuel r3
    | none => extractTagsAux fuel rest

/-- Rust `extract_provider_ids`. -/
def extract_provider_ids (name : String) : List (String × String) :=
  extractTagsAux name.toList.length name.toList

/-- Match of `\s*\[.*?\]\s*` anchored at the head of `cs` (the strip pattern
of scan.rs line 122): maximal leading whitespace, '[', lazily anything up to
the first ']' ('.' does not match '\n'), ']', maximal trailing whitespace.
Returns the rest after the match. -/
def matchStripTagAt (cs : List Char) : Option (List Char) :=
  let w := cs.takeWhile Char.isWhitespace
  match cs.drop w.length with
  | '[' :: r1 =>
    let body := r1.takeWhile (fun c => c ≠ ']' ∧ c ≠ '\n')
    match r1.drop body.length with
    | ']' :: r2 => some (r2.drop ((r2.takeWhile Char.isWhitespace).length))
    | _ => none
  | _ => none

/-- Leftmost-repeated `replace_all` of the strip pattern with the empty
string. Fuel is the list length (every match consumes at least the two
brackets). -/
def stripTagsAux : Nat → List Char → List Char
  | 0, cs => cs
  | _, [] => []
  | fuel + 1, c :: rest =>
    match matchStripTagAt (c :: rest) with
    | some r => stripTagsAux fuel r
    | none => c :: stripTagsAux fuel rest

/-- The provider-tag strip of scan.rs lines 122-127:
`replace_all(name, "")` followed by `trim`. -/
def stripProviderTags (name : String) : String :=
  String.mk (Rustyfin.trimChars (stripTagsAux name.toList.length name.toList))

end Parser

namespace Scan

open Rustyfin.Parser

/-- A candidate file produced by the filesystem walk (walk.rs `MediaEntry`),
together with its path relative to the library root as the scan computes it
(scan.rs lines 46-49): the relative directory components and the filename. -/
structure ScanEntry where
  relDirs : List String
  filename : String
  path : String
  size_bytes : Nat
  mtime_ts : Int
  deriving Repr, DecidableEq

/-- Row of the `item` table (columns used by the scan). -/
structure ItemRow where
  id : Nat
  library_id : String
  kind : String
  parent_id : Option Nat
  title : String
  year : Option Nat
  deriving Repr, DecidableEq

/-- Row of the `media_file` table (columns used by the scan). -/
structure MediaFileRow where
  id : Nat
  path : String
  size_bytes : Nat
  mtime_ts : Int
  deriving Repr, DecidableEq

/-- Row of the `episode_file_map` table (used for movies too). -/
structure FileMapRow where
  id : Nat
  episode_item_id : Nat
  file_id : Nat
  deriving Repr, DecidableEq

/-- Database state touched by the scan. UUIDs are modelled by the `nextId`
fresh-id counter. -/
structure Db where
  items : List ItemRow
  mediaFiles : List MediaFileRow
  fileMaps : List FileMapRow
  nextId : Nat
  deriving Repr, DecidableEq

/-- Embedding of scan.rs `file_exists` (lines 154-161): a `media_file` row
with this path exists. -/
def fileExists (db : Db) (path : String) : Bool :=
  db.mediaFiles.any (fun f => f.path == path)

/-- Embedding of scan.rs `create_media_file` (lines 163-185): insert a fresh
row, return its id. -/
def createMediaFile (db : Db) (e : ScanEntry) : Nat × Db :=
  (db.nextId,
   { db with
      mediaFiles := db.mediaFiles ++ [⟨db.nextId, e.path, e.size_bytes, e.mtime_ts⟩]
      nextId := db.nextId + 1 })

/-- Embedding of scan.rs `find_or_create_item` (lines 187-240): select by the
`(library_id, kind, parent_id, title)` key (the source's two SQL variants for
NULL and non-NULL parent are one `Option` equality here); if present return
that id unchanged, otherwise insert with a fresh id. -/
def findOrCreateItem (db : Db) (library_id kind : String)
    (parent_id : Option Nat) (title : String) (year : Option Nat) : Nat × Db :=
  match db.items.find? (fun it =>
      it.library_id == library_id && it.kind == kind &&
      it.parent_id == parent_id && it.title == title) with
  | some it => (it.id, db)
  | none =>
    (db.nextId,
     { db with
        items := db.items ++ [⟨db.nextId, library_id, kind, parent_id, title, year⟩]
        nextId := db.nextId + 1 })

/-- Embedding of scan.rs `create_movie_item` (lines 242-268). -/
def createMovieItem (db : Db) (library_id : String) (info : MovieInfo)
    (e : ScanEntry) : Db :=
  let r1 := findOrCreateItem db library_id "movie" none info.title info.year
  let r2 := createMediaFile r1.2 e
  let db2 := r2.2
  { db2 with
     fileMaps := db2.fileMaps ++ [⟨db2.nextId, r1.1, r2.1⟩]
     nextId := db2.nextId + 1 }

/-- Embedding of scan.rs `create_episode_item` (lines 270-318): series,
season (`Specials` when the season number is 0, otherwise `Season N`),
episode (default title `Episode N`), media file and map. -/
def createEpisodeItem (db : Db) (library_id : String) (info : EpisodeInfo)
    (e : ScanEntry) : Db :=
  let rSer := findOrCreateItem db library_id "series" none info.series_title none
  let seasonTitle :=
    if info.season = 0 then "Specials" else "Season " ++ toString info.season
  let rSea := findOrCreateItem rSer.2 library_id "season" (some rSer.1) seasonTitle none
  let epTitle := info.episode_title.getD ("Episode " ++ toString info.episode)
  let rEp := findOrCreateItem rSea.2 library_id "episode" (some rSea.1) epTitle none
  let rF := createMediaFile rEp.2 e
  let db2 := rF.2
  { db2 with
     fileMaps := db2.fileMaps ++ [⟨db2.nextId, rEp.1, rF.1⟩]
     nextId := db2.nextId + 1 }

/-- Embedding of scan.rs `parse_movie_entry` (lines 87-101): when the
relative path has a parent directory, try that folder name first and keep the
result when it is a movie with a year; otherwise parse the filename.
`parse_filename` strips everything before the last '/' itself, so passing
the parent's last component equals passing the joined parent path. -/
def parseMovieEntry (relDirs : List String) (filename : String) : ParsedMedia :=
  match relDirs.reverse with
  | [] => parse_filename filename.toList
  | folder :: _ =>
    let parsed := parse_filename folder.toList
    match parsed with
    | ParsedMedia.Movie m => if m.year.isSome then parsed
                             else parse_filename filename.toList
    | _ => parse_filename filename.toList

/-- Embedding of scan.rs `parse_tv_entry` and `find_series_dir` (lines
105-150): parse the filename; if it is an episode with an empty series title,
take the first component of the relative path as the series directory,
strip provider-ID tags from it when it carries any, and fall back to the raw
directory name when the stripped name is empty. -/
def parseTvEntry (relDirs : List String) (filename : String) : ParsedMedia :=
  match parse_filename filename.toList with
  | ParsedMedia.Episode ep =>
    if ep.series_title = "" then
      match (relDirs ++ [filename]).head? with
      | some seriesDir =>
        let st :=
          if (extract_provider_ids seriesDir).isEmpty then seriesDir
          else stripProviderTags seriesDir
        let st := if st = "" then seriesDir else st
        ParsedMedia.Episode { ep with series_title := st }
      | none => ParsedMedia.Episode ep
    else ParsedMedia.Episode ep
  | other => other

/-- Scan counters (scan.rs `ScanResult`). -/
structure ScanResult where
  added : Nat
  skipped : Nat
  deriving Repr, DecidableEq

/-- One iteration of the entry loop of `run_library_scan` (scan.rs lines
35-79): skip entries whose path already has a `media_file` row; otherwise
parse by library kind and insert; an unknown library kind skips the entry
without touching either counter. -/
def scanOneEntry (library_id library_kind : String) (st : Db × ScanResult)
    (e : ScanEntry) : Db × ScanResult :=
  let db := st.1
  let res := st.2
  if fileExists db e.path then (db, { res with skipped := res.skipped + 1 })
  else
    match library_kind with
    | "movies" =>
      match parseMovieEntry e.relDirs e.filename with
      | ParsedMedia.Movie info =>
        (createMovieItem db library_id info e, { res with added := res.added + 1 })
      | ParsedMedia.Episode info =>
        (createEpisodeItem db library_id info e, { res with added := res.added + 1 })
      | ParsedMedia.Unknown _ => (db, { res with skipped := res.skipped + 1 })
    | "tv_shows" =>
      match parseTvEntry e.relDirs e.filename with
      | ParsedMedia.Movie info =>
        (createMovieItem db library_id info e, { res with added := res.added + 1 })
      | ParsedMedia.Episode info =>
        (createEpisodeItem db library_id info e, { res with added := res.added + 1 })
      | ParsedMedia.Unknown _ => (db, { res with skipped := res.skipped + 1 })
    | _ => (db, res)

/-- Embedding of `run_library_scan` (scan.rs lines 9-83) over the fixed walk
result of the library's roots (the source folds the same per-entry body over
every root's entries with one shared counter pair). -/
def run_library_scan (library_id library_kind : String) (db : Db)
    (entries : List ScanEntry) : Db × ScanResult :=
  entries.foldl (scanOneEntry library_id library_kind) (db, ⟨0, 0⟩)

/-- The movie-library walk result of the spec's end-to-end scenario 1. -/
def entriesDemo : List ScanEntry :=
  [⟨["The Matrix (1999)"], "The Matrix (1999).mkv",
    "/lib/The Matrix (1999)/The Matrix (1999).mkv", 100, 0⟩,
   ⟨["Inception (2010)"], "Inception.2010.mkv",
    "/lib/Inception (2010)/Inception.2010.mkv", 200, 0⟩]

/-- An empty database. -/
def dbDemo0 : Db := ⟨[], [], [], 0⟩

/-- The TV-library walk result of the spec's end-to-end scenario 2
(shortened to two episodes). -/
def tvEntriesDemo : List ScanEntry :=
  [⟨["Breaking Bad", "Season 01"], "Breaking.Bad.S01E01.Pilot.mkv",
    "/tv/Breaking Bad/Season 01/Breaking.Bad.S01E01.Pilot.mkv", 1, 0⟩,
   ⟨["Breaking Bad", "Season 02"], "Breaking.Bad.S02E01.Seven.mkv",
    "/tv/Breaking Bad/Season 02/Breaking.Bad.S02E01.Seven.mkv", 1, 0⟩]

end Scan

namespace Session

/-- Transcoder configuration fields that matter to admission
(lib.rs `TranscoderConfig`). -/
structure TranscoderConfig where
  max_concurrent : Nat
  deriving Repr, DecidableEq

/-- Result of `create_session`. -/
inductive CreateResult
  | ok (sessionId : Nat)
  | maxReached (limit : Nat)
  deriving Repr, DecidableEq

/-- State of the `SessionManager` (session.rs lines 52-56) under sequential
execution, together with effect counters: `permits` is the semaphore's
available-permit count, `sessions` the id set of the session map,
`dirsCreated` / `procsSpawned` count `create_dir_all` and ffmpeg spawns.
Session ids (UUIDs in the source) come from the `nextId` counter. -/
structure ManagerState where
  permits : Nat
  sessions : List Nat
  dirsCreated : Nat
  procsSpawned : Nat
  nextId : Nat
  deriving Repr, DecidableEq

/-- Embedding of `SessionManager::new` (session.rs lines 59-66): the
semaphore starts with `max_concurrent` permits and the map empty. -/
def newManager (cfg : TranscoderConfig) : ManagerState :=
  ⟨cfg.max_concurrent, [], 0, 0, 0⟩

/-- Embedding of `create_session` (session.rs lines 70-121) under sequential
execution: `try_acquire` fails — with `MaxTranscodesReached(max_concurrent)`,
touching nothing — only when no permit is available; otherwise the output
directory is created, ffmpeg spawned, the session inserted into the map, and
then the permit is dropped again (source line 117), restoring the semaphore.
The source contains no map-size admission check. -/
def create_session (cfg : TranscoderConfig) (st : ManagerState) :
    ManagerState × CreateResult :=
  if st.permits = 0 then (st, CreateResult.maxReached cfg.max_concurrent)
  else
    let acquired := st.permits - 1
    let id := st.nextId
    ({ permits := acquired + 1
       sessions := st.sessions ++ [id]
       dirsCreated := st.dirsCreated + 1
       procsSpawned := st.procsSpawned + 1
       nextId := id + 1 },
     CreateResult.ok id)

/-- Embedding of `stop_session` (session.rs lines 149-167): remove the
session record when present (child teardown and directory removal do not
change the modelled state beyond the map). -/
def stop_session (st : ManagerState) (id : Nat) : ManagerState × Bool :=
  if st.sessions.contains id then
    ({ st with sessions := st.sessions.filter (fun s => s ≠ id) }, true)
  else (st, false)

/-- Embedding of `ping` (session.rs lines 124-131): refreshes `last_ping`
only; the modelled state is unchanged. -/
def ping (st : ManagerState) (id : Nat) : ManagerState × Bool :=
  (st, st.sessions.contains id)

/-- Embedding of `active_count` (session.rs lines 194-196). -/
def active_count (st : ManagerState) : Nat := st.sessions.length

/-- States of the manager reachable by any sequential interleaving of
`create_session`, `stop_session`, `ping` and `cleanup_idle` (a cleanup
removes the idle subset of the map — each removal acts like `stop_session`). -/
inductive Reachable (cfg : TranscoderConfig) : ManagerState → Prop
  | init : Reachable cfg (newManager cfg)
  | create (st : ManagerState) : Reachable cfg st →
      Reachable cfg (create_session cfg st).1
  | stop (st : ManagerState) (id : Nat) : Reachable cfg st →
      Reachable cfg (stop_session st id).1

end Session

namespace Playstate

/-- Row of `user_item_state` (playstate.rs `PlayStateRow`). -/
structure PlayStateRow where
  user_id : String
  item_id : String
  played : Bool
  progress_ms : Int
  last_played_ts : Option Int
  favorite : Bool
  deriving Repr, DecidableEq

/-- The `(user_id, item_id)` unique-key predicate of `user_item_state`. -/
def keyMatch (user_id item_id : String) (r : PlayStateRow) : Bool :=
  r.user_id == user_id && r.item_id == item_id

/-- The `DO UPDATE SET` assignment of the upsert: `played`, `progress_ms` and
`last_played_ts = excluded.last_played_ts` on a keyed row, identity elsewhere. -/
def updRow (user_id item_id : String) (progress_ms : Int) (played : Bool)
    (now : Int) (r : PlayStateRow) : PlayStateRow :=
  if keyMatch user_id item_id r then
    { r with played := played, progress_ms := progress_ms,
             last_played_ts := some now }
  else r

/-- Embedding of `update_progress` (playstate.rs lines 6-29): an
`INSERT … ON CONFLICT(user_id, item_id) DO UPDATE` that sets `played`,
`progress_ms` and `last_played_ts := now` on the keyed row, inserting it when
absent. The `favorite` column is not in the statement: an update leaves it
unchanged and an insert takes the schema default `false` (modelled from the
spec's `UserItemState` description; the migration SQL is not in the tree). -/
def update_progress (rows : List PlayStateRow) (user_id item_id : String)
    (progress_ms : Int) (played : Bool) (now : Int) : List PlayStateRow :=
  if rows.any (keyMatch user_id item_id) then
    rows.map (updRow user_id item_id progress_ms played now)
  else rows ++ [⟨user_id, item_id, played, progress_ms, some now, false⟩]

/-- Embedding of `get_play_state` (playstate.rs lines 41-63). -/
def get_play_state (rows : List PlayStateRow) (user_id item_id : String) :
    Option PlayStateRow :=
  rows.find? (keyMatch user_id item_id)

end Playstate

namespace Jobs

/-- Row of the `job` table (jobs.rs `JobRow`; `progress` is a REAL column the
cancel path never reads or writes, `kind`/`payload` likewise — they are
carried opaquely). -/
structure JobRow where
  id : String
  kind : String
  status : String
  error : Option String
  created_ts : Int
  updated_ts : Int
  deriving Repr, DecidableEq

/-- The `WHERE id = ? AND status IN ('queued', 'running')` predicate of the
cancel UPDATE. -/
def cancelPred (job_id : String) (j : JobRow) : Bool :=
  j.id == job_id && (j.status == "queued" || j.status == "running")

/-- Embedding of `cancel_job` (jobs.rs lines 110-121): an UPDATE setting
`status = 'cancelled'` and `updated_ts = now` on rows whose id matches and
whose status is `queued` or `running`; the returned Bool is
`rows_affected > 0`. -/
def cancel_job (jobs : List JobRow) (job_id : String) (now : Int) :
    List JobRow × Bool :=
  let hits := jobs.countP (cancelPred job_id)
  (jobs.map (fun j =>
     if cancelPred job_id j then
       { j with status := "cancelled", updated_ts := now }
     else j),
   0 < hits)

end Jobs

/-! ### Supporting lemmas -/

/-- With a positive file size, `checkedSub fileSize 1` cannot underflow. -/
theorem checkedSub_one_of_pos {s : Nat} (hs : 1 ≤ s) :
    checkedSub s 1 = some (s - 1) := by
  simp [checkedSub, hs]

/-- With a positive file size, `computeEnd` never signals a panic. -/
theorem computeEnd_ne_panic (endS : List Char) {s : Nat} (hs : 1 ≤ s) :
    Streaming.computeEnd endS s ≠ Sum.inl Streaming.RangeResult.panic := by
  unfold Streaming.computeEnd
  rw [checkedSub_one_of_pos hs]
  split <;> simp
  split <;> simp

/-- With a positive file size, `parseRangeChars` never panics. -/
theorem parseRangeChars_ne_panic (cs : List Char) {s : Nat} (hs : 1 ≤ s) :
    Streaming.parseRangeChars cs s ≠ Streaming.RangeResult.panic := by
  unfold Streaming.parseRangeChars
  split
  · rename_i heq
    rw [checkedSub_one_of_pos hs] at heq
    cases heq
  · dsimp only
    split
    · split
      · simp
      · split
        · split <;> simp
        · split
          · simp
          · split
            · rename_i r hr
              intro hcontra
              subst hcontra
              exact computeEnd_ne_panic _ hs hr
            · split
              · simp
              · split <;> simp
    · simp

/-! ### Claim theorems -/

/-- C1 (code bug): with `max_concurrent = 1`, two sequential `create_session`
calls both succeed — the semaphore permit is acquired and dropped within each
call and the source has no map-size admission check, contrary to its own
comment (session.rs lines 112-116) — so `active_count` reaches 2, violating
`active_count ≤ max_concurrent` at a reachable state, and the second call
does not fail with `MaxTranscodesReached(1)`. -/
theorem claim_C1_code_eval :
    (Session.create_session ⟨1⟩ (Session.newManager ⟨1⟩)).2 =
      Session.CreateResult.ok 0 ∧
    (Session.create_session ⟨1⟩
        (Session.create_session ⟨1⟩ (Session.newManager ⟨1⟩)).1).2 =
      Session.CreateResult.ok 1 ∧
    Session.Reachable ⟨1⟩
      (Session.create_session ⟨1⟩
        (Session.create_session ⟨1⟩ (Session.newManager ⟨1⟩)).1).1 ∧
    Session.active_count
      (Session.create_session ⟨1⟩
        (Session.create_session ⟨1⟩ (Session.newManager ⟨1⟩)).1).1 = 2 ∧
    ¬ Session.active_count
        (Session.create_session ⟨1⟩
          (Session.create_session ⟨1⟩ (Session.newManager ⟨1⟩)).1).1 ≤ 1 := by
  refine ⟨by decide, by decide, ?_, by decide, by decide⟩
  exact Session.Reachable.create _ (Session.Reachable.create _ Session.Reachable.init)

/-- C5 (code bug): the claim's 22-extension candidate set — also asserted by
the repository's own test crates/scanner/tests/video_extensions.rs — is not
what `is_video_file` implements: the source's `VIDEO_EXTENSIONS` list lacks
m2ts, mts, 3g2, vob, mxf, asf, f4v, mpe and mpv, so those files are not
candidates, while the 13 listed extensions are recognized (case-insensitively
on the extension). -/
theorem claim_C5_code_eval :
    Parser.is_video_file "d.m2ts" = false ∧
    Parser.is_video_file "r.mts" = false ∧
    Parser.is_video_file "q.3g2" = false ∧
    Parser.is_video_file "n.vob" = false ∧
    Parser.is_video_file "o.mxf" = false ∧
    Parser.is_video_file "s.asf" = false ∧
    Parser.is_video_file "p.f4v" = false ∧
    Parser.is_video_file "t.mpe" = false ∧
    Parser.is_video_file "u.mpv" = false ∧
    Parser.is_video_file "a.mp4" = true ∧
    Parser.is_video_file "b.MKV" = true ∧
    Parser.is_video_file "h.ts" = true ∧
    Parser.is_video_file "notes.txt" = false := by
  decide

/-- C7 (code bug): the suffix-range branch of `parse_range_header` returns
before the validation block, so `bytes=-0` against a 5000-byte file succeeds
with `start = 5000 > 4999 = end`, violating the claimed invariant
`start ≤ end ≤ size - 1`; the handler then panics computing
`end - start + 1`. Every other code path enforces the invariant. -/
theorem claim_C7_code_eval :
    Streaming.parse_range_header "bytes=-0" 5000 =
      Streaming.RangeResult.ok 5000 4999 ∧
    ¬ (5000 : Nat) ≤ 4999 ∧
    Streaming.streamRangeResponse "bytes=-0" 5000 =
      Streaming.HandlerResult.panicked := by
  decide

/-- C8 (confirmed): `parse_range_header` never reaches an underflowing
subtraction when `file_size ≥ 1`, and for `file_size = 0` both the suffix
range `bytes=-1` and the open-ended range `bytes=0-` hit the unchecked
`file_size - 1` before the start-versus-size validation runs. -/
theorem claim_C8 :
    (∀ (r : String) (s : Nat), 1 ≤ s →
      Streaming.parse_range_header r s ≠ Streaming.RangeResult.panic) ∧
    Streaming.parse_range_header "bytes=-1" 0 = Streaming.RangeResult.panic ∧
    Streaming.parse_range_header "bytes=0-" 0 = Streaming.RangeResult.panic :=
  ⟨fun r _ hs => parseRangeChars_ne_panic r.toList hs, by decide, by decide⟩

/-- Witness for C8 at a concrete input. -/
theorem claim_C8_witness :
    (1 : Nat) ≤ 5000 ∧
    Streaming.parse_range_header "bytes=0-999" 5000 ≠ Streaming.RangeResult.panic :=
  ⟨by decide, claim_C8.1 "bytes=0-999" 5000 (by decide)⟩

/-- C2 (counterexample): for the syntactically bad Range value `bytes=abc`
and file size 100 the claim demands status 400, but the handler answers the
unsatisfiable-range response 416 with `Content-Range: bytes */100` and an
empty body — `stream_file_range` maps every `parse_range_header` error to
416 and never answers 400. -/
theorem claim_C2_counterexample :
    Streaming.streamRangeResponse "bytes=abc" 100 =
      Streaming.HandlerResult.resp ⟨416, some "bytes */100", true⟩ ∧
    (416 : Nat) ≠ 400 := by
  decide

/-- C2 (amended): every response of the range branch has status 416 —
with `Content-Range: bytes */size` and an empty body — exactly when
`parse_range_header` fails (start at or beyond the size, syntactically bad
values, and inverted ranges alike), and a response with status 400 is never
produced. -/
theorem claim_C2_amended (r : String) (s : Nat)
    (resp : Streaming.RangeBranchResponse)
    (h : Streaming.streamRangeResponse r s = Streaming.HandlerResult.resp resp) :
    resp.status ≠ 400 ∧
    ((resp.status = 416 ∧
        resp.contentRange = some (Streaming.contentRangeUnsat s) ∧
        resp.bodyEmpty = true) ↔
      Streaming.parse_range_header r s = Streaming.RangeResult.err) := by
  unfold Streaming.streamRangeResponse at h
  cases hp : Streaming.parse_range_header r s with
  | panic => rw [hp] at h; cases h
  | err =>
    rw [hp] at h
    dsimp only at h
    cases h
    exact ⟨by simp, by simp [hp]⟩
  | ok a b =>
    rw [hp] at h
    dsimp only at h
    cases hcs : checkedSub b a with
    | none => rw [hcs] at h; cases h
    | some d =>
      rw [hcs] at h
      dsimp only at h
      cases h
      refine ⟨by simp, ?_⟩
      constructor
      · intro hx
        exact absurd hx.1 (by simp)
      · intro hx
        cases hx

/-- Witness for C2 (amended) at a concrete input. -/
theorem claim_C2_amended_witness :
    (Streaming.RangeBranchResponse.mk 416 (some "bytes */100") true).status ≠ 400 ∧
    (((Streaming.RangeBranchResponse.mk 416 (some "bytes */100") true).status = 416 ∧
        (Streaming.RangeBranchResponse.mk 416 (some "bytes */100") true).contentRange =
          some (Streaming.contentRangeUnsat 100) ∧
        (Streaming.RangeBranchResponse.mk 416 (some "bytes */100") true).bodyEmpty = true) ↔
      Streaming.parse_range_header "bytes=abc" 100 = Streaming.RangeResult.err) :=
  claim_C2_amended "bytes=abc" 100 ⟨416, some "bytes */100", true⟩ (by decide)

/-- C4 (confirmed): the method of a play decision is `DirectPlay` exactly
when the reason list is empty, `Remux` exactly when there are reasons but
neither transcode flag is set, and `Transcode` exactly when there are
reasons and at least one transcode flag is set. -/
theorem claim_C4 (m : Decision.MediaInfo) (c : Decision.ClientCaps) :
    ((Decision.decide m c).method = Decision.PlayMethod.DirectPlay ↔
      (Decision.decide m c).reasons = []) ∧
    ((Decision.decide m c).method = Decision.PlayMethod.Remux ↔
      ((Decision.decide m c).reasons ≠ [] ∧
       (Decision.decide m c).transcode_video = false ∧
       (Decision.decide m c).transcode_audio = false)) ∧
    ((Decision.decide m c).method = Decision.PlayMethod.Transcode ↔
      ((Decision.decide m c).reasons ≠ [] ∧
       ((Decision.decide m c).transcode_video = true ∨
        (Decision.decide m c).transcode_audio = true))) := by
  unfold Decision.decide
  rcases hf : Decision.decideFlags m c with ⟨r, tv, ta⟩
  dsimp only
  unfold Decision.methodFor
  rcases r with _ | ⟨x, xs⟩ <;> cases tv <;> cases ta <;> simp

/-- Witness for C4 at the decision.rs test fixture. -/
theorem claim_C4_witness :
    ((Decision.decide Decision.testMedia Decision.defaultCaps).method =
        Decision.PlayMethod.DirectPlay ↔
      (Decision.decide Decision.testMedia Decision.defaultCaps).reasons = []) :=
  (claim_C4 Decision.testMedia Decision.defaultCaps).1

/-- The upsert assignment does not change the key of a row. -/
theorem keyMatch_updRow (u i : String) (p : Int) (b : Bool) (t : Int)
    (r : Playstate.PlayStateRow) :
    Playstate.keyMatch u i (Playstate.updRow u i p b t r) =
      Playstate.keyMatch u i r := by
  rcases r with ⟨ru, ri, rpl, rpm, rts, rf⟩
  unfold Playstate.updRow Playstate.keyMatch
  by_cases h : (ru == u && ri == i) = true
  · simp [h]
  · simp [h]

/-- The upsert assignment is idempotent on rows. -/
theorem updRow_idem (u i : String) (p : Int) (b : Bool) (t : Int)
    (r : Playstate.PlayStateRow) :
    Playstate.updRow u i p b t (Playstate.updRow u i p b t r) =
      Playstate.updRow u i p b t r := by
  rcases r with ⟨ru, ri, rpl, rpm, rts, rf⟩
  unfold Playstate.updRow Playstate.keyMatch
  by_cases h : (ru == u && ri == i) = true
  · simp [h]
  · simp [h]

/-- Looking up the key after mapping the upsert assignment over a list that
contains a keyed row yields the row with the new values. -/
theorem find?_map_updRow (u i : String) (p : Int) (b : Bool) (t : Int) :
    ∀ rows : List Playstate.PlayStateRow,
      rows.any (Playstate.keyMatch u i) = true →
      ∃ fav, (rows.map (Playstate.updRow u i p b t)).find?
          (Playstate.keyMatch u i) = some ⟨u, i, b, p, some t, fav⟩
  | [], h => by simp at h
  | r :: rs, h => by
    cases hk : Playstate.keyMatch u i r with
    | false =>
      have hrest : rs.any (Playstate.keyMatch u i) = true := by
        simp only [List.any_cons, hk, Bool.false_or] at h
        exact h
      obtain ⟨fav, hfav⟩ := find?_map_updRow u i p b t rs hrest
      refine ⟨fav, ?_⟩
      rw [List.map_cons, List.find?_cons_of_neg, hfav]
      rw [keyMatch_updRow, hk]
      simp
    | true =>
      have hui : r.user_id = u ∧ r.item_id = i := by
        simpa [Playstate.keyMatch] using hk
      refine ⟨r.favorite, ?_⟩
      rw [List.map_cons, List.find?_cons_of_pos]
      · unfold Playstate.updRow
        rw [hk]
        simp [hui.1, hui.2]
      · rw [keyMatch_updRow, hk]

/-- C9 (confirmed): `update_progress` is a set-to upsert on the
`(user_id, item_id)` key: after the call the keyed row holds exactly the
given progress and played flag (with `last_played_ts` set to the call time
and `favorite` untouched), and repeating the call with the same arguments at
the same instant leaves the table unchanged. -/
theorem claim_C9 (rows : List Playstate.PlayStateRow) (u i : String)
    (p : Int) (b : Bool) (t : Int) :
    (∃ fav, Playstate.get_play_state
        (Playstate.update_progress rows u i p b t) u i =
        some ⟨u, i, b, p, some t, fav⟩) ∧
    Playstate.update_progress (Playstate.update_progress rows u i p b t)
        u i p b t = Playstate.update_progress rows u i p b t := by
  cases ha : rows.any (Playstate.keyMatch u i) with
  | true =>
    have hupd : Playstate.update_progress rows u i p b t =
        rows.map (Playstate.updRow u i p b t) := by
      unfold Playstate.update_progress
      rw [ha]
      simp
    have hany : (rows.map (Playstate.updRow u i p b t)).any
        (Playstate.keyMatch u i) = true := by
      obtain ⟨r, hr, hkr⟩ := List.any_eq_true.mp ha
      exact List.any_eq_true.mpr
        ⟨Playstate.updRow u i p b t r, List.mem_map_of_mem _ hr,
         by rw [keyMatch_updRow]; exact hkr⟩
    constructor
    · rw [hupd]
      exact find?_map_updRow u i p b t rows ha
    · rw [hupd]
      unfold Playstate.update_progress
      rw [hany]
      simp only [if_true]
      rw [List.map_map]
      apply List.map_congr_left
      intro r _
      exact updRow_idem u i p b t r
  | false =>
    have hnone : ∀ r ∈ rows, ¬ Playstate.keyMatch u i r = true :=
      List.any_eq_false.mp ha
    have hnew : Playstate.keyMatch u i
        (⟨u, i, b, p, some t, false⟩ : Playstate.PlayStateRow) = true := by
      simp [Playstate.keyMatch]
    have hupd : Playstate.update_progress rows u i p b t =
        rows ++ [(⟨u, i, b, p, some t, false⟩ : Playstate.PlayStateRow)] := by
      unfold Playstate.update_progress
      rw [ha]
      simp
    constructor
    · refine ⟨false, ?_⟩
      rw [hupd]
      unfold Playstate.get_play_state
      rw [List.find?_append]
      have h1 : rows.find? (Playstate.keyMatch u i) = none :=
        List.find?_eq_none.mpr hnone
      rw [h1]
      simp [hnew]
    · rw [hupd]
      unfold Playstate.update_progress
      have hany2 : (rows ++
          [(⟨u, i, b, p, some t, false⟩ : Playstate.PlayStateRow)]).any
          (Playstate.keyMatch u i) = true := by
        rw [List.any_append]
        simp [hnew]
      rw [hany2]
      simp only [if_true]
      rw [List.map_append]
      congr 1
      · refine (List.map_congr_left ?_).trans (List.map_id rows)
        intro r hr
        unfold Playstate.updRow
        have hk := hnone r hr
        simp only [Bool.not_eq_true] at hk
        rw [hk]
        simp
      · simp only [List.map_cons, List.map_nil]
        unfold Playstate.updRow
        rw [hnew]
        simp

/-- C10 (confirmed): `cancel_job` reports success exactly when some row has
the given id and a `queued` or `running` status; on failure the table is
unchanged; rows outside the predicate survive untouched and every matching
row is rewritten to `cancelled` with the new `updated_ts`. -/
theorem claim_C10 (jobs : List Jobs.JobRow) (jid : String) (t : Int) :
    ((Jobs.cancel_job jobs jid t).2 = true ↔
      ∃ j ∈ jobs, j.id = jid ∧ (j.status = "queued" ∨ j.status = "running")) ∧
    ((Jobs.cancel_job jobs jid t).2 = false →
      (Jobs.cancel_job jobs jid t).1 = jobs) ∧
    (∀ j ∈ jobs, ¬ (j.id = jid ∧ (j.status = "queued" ∨ j.status = "running")) →
      j ∈ (Jobs.cancel_job jobs jid t).1) ∧
    (∀ j ∈ jobs, j.id = jid → (j.status = "queued" ∨ j.status = "running") →
      { j with status := "cancelled", updated_ts := t } ∈
        (Jobs.cancel_job jobs jid t).1) := by
  have hpred : ∀ j : Jobs.JobRow, Jobs.cancelPred jid j = true ↔
      (j.id = jid ∧ (j.status = "queued" ∨ j.status = "running")) := by
    intro j
    simp [Jobs.cancelPred]
  refine ⟨?_, ?_, ?_, ?_⟩
  · unfold Jobs.cancel_job
    simp only [decide_eq_true_eq]
    rw [List.countP_pos_iff]
    constructor
    · rintro ⟨j, hj, hp⟩
      exact ⟨j, hj, (hpred j).mp hp⟩
    · rintro ⟨j, hj, hp⟩
      exact ⟨j, hj, (hpred j).mpr hp⟩
  · unfold Jobs.cancel_job
    intro hc
    have hz : jobs.countP (Jobs.cancelPred jid) = 0 := by
      have hnpos := of_decide_eq_false hc
      omega
    have hnone := List.countP_eq_zero.mp hz
    dsimp only
    refine (List.map_congr_left ?_).trans (List.map_id jobs)
    intro j hj
    have hk := hnone j hj
    simp only [Bool.not_eq_true] at hk
    simp [hk]
  · intro j hj hneg
    have hp : Jobs.cancelPred jid j = false := by
      cases hc : Jobs.cancelPred jid j with
      | false => rfl
      | true => exact absurd ((hpred j).mp hc) hneg
    unfold Jobs.cancel_job
    dsimp only
    have hmem := List.mem_map_of_mem (fun j : Jobs.JobRow =>
      if Jobs.cancelPred jid j then
        { j with status := "cancelled", updated_ts := t }
      else j) hj
    simpa [hp] using hmem
  · intro j hj hid hst
    have hp : Jobs.cancelPred jid j = true := (hpred j).mpr ⟨hid, hst⟩
    unfold Jobs.cancel_job
    dsimp only
    have hmem := List.mem_map_of_mem (fun j : Jobs.JobRow =>
      if Jobs.cancelPred jid j then
        { j with status := "cancelled", updated_ts := t }
      else j) hj
    simpa [hp] using hmem

/-- Witness for C9 at a concrete input. -/
theorem claim_C9_witness :
    Playstate.update_progress
        (Playstate.update_progress [] "u1" "i1" 1500 true 7) "u1" "i1" 1500 true 7 =
      Playstate.update_progress [] "u1" "i1" 1500 true 7 :=
  (claim_C9 [] "u1" "i1" 1500 true 7).2

/-- Witness for C10 at a concrete input. -/
theorem claim_C10_witness :
    (Jobs.cancel_job [⟨"j1", "scan", "running", none, 0, 0⟩] "j1" 5).2 = true :=
  (claim_C10 [⟨"j1", "scan", "running", none, 0, 0⟩] "j1" 5).1.mpr
    ⟨⟨"j1", "scan", "running", none, 0, 0⟩, by decide, rfl, Or.inr rfl⟩

/-- C6 (counterexample): the stem `Seinfeld.3x12.The.Airport` is matched by
the NxNN pattern with text `.The.Airport` right of the match, whose cleaned,
separator-trimmed form is `The Airport`; the claim therefore requires the
episode title `The Airport`, but `try_parse_episode` returns no episode
title — its NxNN and `Season N Episode M` branches never extract one. -/
theorem claim_C6_counterexample :
    Parser.try_parse_episode "Seinfeld.3x12.The.Airport".toList =
      some ⟨"Seinfeld", 3, 12, none⟩ ∧
    Parser.clean_title ((".The.Airport".toList).dropWhile
      (fun c => c = '-' ∨ c = '.' ∨ c = ' ' ∨ c = '_')) = "The Airport" ∧
    (none : Option String) ≠ some "The Airport" := by
  refine ⟨by decide, by decide, by decide⟩

/-- C6 (amended): the three episode patterns are tried in order SxxExx, NxNN,
`Season N Episode M`; the winning pattern's capture groups give season and
episode, and the cleaned text left of the match gives the series title. The
episode title is taken from the text right of the match — trimmed of '-',
'.', ' ', '_' and cleaned — only by the SxxExx branch, and only when the raw
right text is longer than one character and cleans to something non-empty;
the NxNN and `Season N Episode M` branches always leave it empty (and the
latter's captures must also fit in u32 for the parse to succeed at all). -/
theorem claim_C6_amended (stem : List Char) :
    (∀ pre se after, Parser.findSE stem = some (pre, se, after) →
      Parser.try_parse_episode stem =
        some ⟨Parser.clean_title pre, se.1, se.2,
              Parser.episodeTitleAfterSE after⟩) ∧
    (Parser.findSE stem = none →
      ∀ pre se after, Parser.findXep stem = some (pre, se, after) →
        Parser.try_parse_episode stem =
          some ⟨Parser.clean_title pre, se.1, se.2, none⟩) ∧
    (Parser.findSE stem = none → Parser.findXep stem = none →
      ∀ pre ds after s e, Parser.findSeasonEp stem = some (pre, ds, after) →
        Rustyfin.parseU32 ds.1 = some s → Rustyfin.parseU32 ds.2 = some e →
        Parser.try_parse_episode stem =
          some ⟨Parser.clean_title pre, s, e, none⟩) := by
  refine ⟨?_, ?_, ?_⟩
  · rintro pre ⟨s, e⟩ after h
    unfold Parser.try_parse_episode
    rw [h]
  · rintro h0 pre ⟨s, e⟩ after h1
    unfold Parser.try_parse_episode
    rw [h0, h1]
  · rintro h0 h1 pre ⟨d1, d2⟩ after s e h2 hp1 hp2
    unfold Parser.try_parse_episode
    rw [h0, h1, h2]
    dsimp only
    rw [hp1, hp2]

/-- Witness for C6 (amended) at a concrete input (NxNN branch). -/
theorem claim_C6_amended_witness :
    Parser.try_parse_episode "a.1x02.b".toList =
      some ⟨Parser.clean_title "a.".toList, 1, 2, none⟩ :=
  (claim_C6_amended "a.1x02.b".toList).2.1 (by decide)
    "a.".toList (1, 2) ".b".toList (by decide)

/-- The filename parser never produces `Unknown`: its fallback is a movie
with the cleaned stem as title. -/
theorem parse_filename_ne_unknown (cs : List Char) (s : String) :
    Parser.parse_filename cs ≠ Parser.ParsedMedia.Unknown s := by
  unfold Parser.parse_filename
  dsimp only
  split
  · intro h; exact Parser.ParsedMedia.noConfusion h
  · split
    · intro h; exact Parser.ParsedMedia.noConfusion h
    · intro h; exact Parser.ParsedMedia.noConfusion h

/-- The movie-entry parser never produces `Unknown`. -/
theorem parseMovieEntry_ne_unknown (rd : List String) (fn : String)
    (s : String) :
    Scan.parseMovieEntry rd fn ≠ Parser.ParsedMedia.Unknown s := by
  unfold Scan.parseMovieEntry
  split
  · exact parse_filename_ne_unknown _ s
  · dsimp only
    split
    · split
      · exact parse_filename_ne_unknown _ s
      · exact parse_filename_ne_unknown _ s
    · exact parse_filename_ne_unknown _ s

/-- The TV-entry parser never produces `Unknown`. -/
theorem parseTvEntry_ne_unknown (rd : List String) (fn : String)
    (s : String) :
    Scan.parseTvEntry rd fn ≠ Parser.ParsedMedia.Unknown s := by
  unfold Scan.parseTvEntry
  split
  · split
    · split
      · intro h; exact Parser.ParsedMedia.noConfusion h
      · intro h; exact Parser.ParsedMedia.noConfusion h
    · intro h; exact Parser.ParsedMedia.noConfusion h
  · exact parse_filename_ne_unknown _ s

/-- `find_or_create_item` never touches the `media_file` table. -/
theorem foc_mediaFiles (db : Scan.Db) (lib kind : String)
    (pid : Option Nat) (title : String) (year : Option Nat) :
    (Scan.findOrCreateItem db lib kind pid title year).2.mediaFiles =
      db.mediaFiles := by
  unfold Scan.findOrCreateItem
  split <;> rfl

/-- Creating a movie item adds exactly the entry's path to the
`media_file` table. -/
theorem fileExists_createMovieItem (db : Scan.Db) (lid : String)
    (info : Parser.MovieInfo) (e : Scan.ScanEntry) (p : String) :
    Scan.fileExists (Scan.createMovieItem db lid info e) p =
      (Scan.fileExists db p || (e.path == p)) := by
  unfold Scan.createMovieItem Scan.createMediaFile Scan.fileExists
  dsimp only
  rw [foc_mediaFiles]
  simp [List.any_append]

/-- Creating an episode item adds exactly the entry's path to the
`media_file` table. -/
theorem fileExists_createEpisodeItem (db : Scan.Db) (lid : String)
    (info : Parser.EpisodeInfo) (e : Scan.ScanEntry) (p : String) :
    Scan.fileExists (Scan.createEpisodeItem db lid info e) p =
      (Scan.fileExists db p || (e.path == p)) := by
  unfold Scan.createEpisodeItem Scan.createMediaFile Scan.fileExists
  dsimp only
  rw [foc_mediaFiles, foc_mediaFiles, foc_mediaFiles]
  simp [List.any_append]

/-- A scan-loop iteration on an already-known path only increments
`skipped`. -/
theorem scanOne_skip (lid k : String) (db : Scan.Db) (res : Scan.ScanResult)
    (e : Scan.ScanEntry) (h : Scan.fileExists db e.path = true) :
    Scan.scanOneEntry lid k (db, res) e =
      (db, { res with skipped := res.skipped + 1 }) := by
  unfold Scan.scanOneEntry
  dsimp only
  rw [h]
  simp

/-- A scan-loop iteration on a fresh path in a movies or tv library
increments `added` and registers exactly that path. -/
theorem scanOne_fresh (lid k : String)
    (hk : k = "movies" ∨ k = "tv_shows") (db : Scan.Db)
    (res : Scan.ScanResult) (e : Scan.ScanEntry)
    (h : Scan.fileExists db e.path = false) :
    ∃ db', Scan.scanOneEntry lid k (db, res) e =
        (db', { res with added := res.added + 1 }) ∧
      ∀ p, Scan.fileExists db' p = (Scan.fileExists db p || (e.path == p)) := by
  rcases hk with hk | hk <;> subst hk <;>
    unfold Scan.scanOneEntry <;> dsimp only <;> rw [h]
  · cases hp : Scan.parseMovieEntry e.relDirs e.filename with
    | Movie info =>
      exact ⟨Scan.createMovieItem db lid info e, by simp [hp],
             fun p => fileExists_createMovieItem db lid info e p⟩
    | Episode info =>
      exact ⟨Scan.createEpisodeItem db lid info e, by simp [hp],
             fun p => fileExists_createEpisodeItem db lid info e p⟩
    | Unknown s => exact absurd hp (parseMovieEntry_ne_unknown _ _ s)
  · cases hp : Scan.parseTvEntry e.relDirs e.filename with
    | Movie info =>
      exact ⟨Scan.createMovieItem db lid info e, by simp [hp],
             fun p => fileExists_createMovieItem db lid info e p⟩
    | Episode info =>
      exact ⟨Scan.createEpisodeItem db lid info e, by simp [hp],
             fun p => fileExists_createEpisodeItem db lid info e p⟩
    | Unknown s => exact absurd hp (parseTvEntry_ne_unknown _ _ s)

/-- Folding the scan loop over entries whose paths are all known leaves the
database unchanged and counts every entry as skipped. -/
theorem scan_allskip (lid k : String) :
    ∀ (entries : List Scan.ScanEntry) (db : Scan.Db) (a s : Nat),
      (∀ e ∈ entries, Scan.fileExists db e.path = true) →
      List.foldl (Scan.scanOneEntry lid k) (db, ⟨a, s⟩) entries =
        (db, ⟨a, s + entries.length⟩)
  | [], db, a, s, _ => by simp
  | e :: es, db, a, s, h => by
    rw [List.foldl_cons, scanOne_skip lid k db ⟨a, s⟩ e (h e (by simp))]
    have hrec := scan_allskip lid k es db a (s + 1)
      (fun e' he' => h e' (by simp [he']))
    dsimp only
    rw [hrec]
    congr 1
    simp
    omega

/-- Folding the scan loop over pairwise-distinct fresh paths in a movies or
tv library adds every entry, skips none, and registers exactly the entry
paths. -/
theorem scan_fresh (lid k : String)
    (hk : k = "movies" ∨ k = "tv_shows") :
    ∀ (entries : List Scan.ScanEntry) (db : Scan.Db) (a s : Nat),
      (entries.map (fun e => e.path)).Nodup →
      (∀ e ∈ entries, Scan.fileExists db e.path = false) →
      ∃ db', List.foldl (Scan.scanOneEntry lid k) (db, ⟨a, s⟩) entries =
          (db', ⟨a + entries.length, s⟩) ∧
        ∀ p, Scan.fileExists db' p =
          (Scan.fileExists db p || entries.any (fun e => e.path == p))
  | [], db, a, s, _, _ => ⟨db, by simp, by simp⟩
  | e :: es, db, a, s, hnd, hf => by
    rw [List.map_cons] at hnd
    obtain ⟨hnotmem, hnd'⟩ := List.nodup_cons.mp hnd
    obtain ⟨db1, hstep, hdb1⟩ :=
      scanOne_fresh lid k hk db ⟨a, s⟩ e (hf e (by simp))
    have hfres : ∀ e' ∈ es, Scan.fileExists db1 e'.path = false := by
      intro e' he'
      rw [hdb1]
      have h1 : Scan.fileExists db e'.path = false := hf e' (by simp [he'])
      have h2 : (e.path == e'.path) = false := by
        refine beq_eq_false_iff_ne.mpr ?_
        intro hEq
        exact hnotmem (hEq ▸ List.mem_map_of_mem (fun x => x.path) he')
      rw [h1, h2]
      rfl
    obtain ⟨db', hrest, hdb'⟩ :=
      scan_fresh lid k hk es db1 (a + 1) s hnd' hfres
    refine ⟨db', ?_, ?_⟩
    · rw [List.foldl_cons, hstep]
      dsimp only
      rw [hrest]
      congr 1
      simp
      omega
    · intro p
      rw [hdb', hdb1]
      simp [List.any_cons, Bool.or_assoc]

/-- C3 (confirmed): scanning a fixed walk result of N candidate files with
pairwise-distinct fresh paths yields `(added, skipped) = (N, 0)`, and
scanning the same walk result again yields `(0, N)` and leaves the database
— items, media files and file maps — exactly unchanged. -/
theorem claim_C3 (lid kind : String) (db : Scan.Db)
    (entries : List Scan.ScanEntry)
    (hk : kind = "movies" ∨ kind = "tv_shows")
    (hnd : (entries.map (fun e => e.path)).Nodup)
    (hfresh : ∀ e ∈ entries, Scan.fileExists db e.path = false) :
    (Scan.run_library_scan lid kind db entries).2 = ⟨entries.length, 0⟩ ∧
    Scan.run_library_scan lid kind
        (Scan.run_library_scan lid kind db entries).1 entries =
      ((Scan.run_library_scan lid kind db entries).1, ⟨0, entries.length⟩) := by
  obtain ⟨db', hrun, hdb'⟩ := scan_fresh lid kind hk entries db 0 0 hnd hfresh
  unfold Scan.run_library_scan
  rw [hrun]
  constructor
  · simp
  · have hall : ∀ e ∈ entries, Scan.fileExists db' e.path = true := by
      intro e he
      rw [hdb']
      have hany : entries.any (fun e' => e'.path == e.path) = true :=
        List.any_eq_true.mpr ⟨e, he, by simp⟩
      rw [hany]
      simp
    have h2 := scan_allskip lid kind entries db' 0 0 hall
    dsimp only
    rw [h2]
    simp

/-- Witness for C3 at the spec's movie-scan scenario. -/
theorem claim_C3_witness :
    (Scan.run_library_scan "L" "movies" Scan.dbDemo0 Scan.entriesDemo).2 =
      ⟨2, 0⟩ ∧
    Scan.run_library_scan "L" "movies"
        (Scan.run_library_scan "L" "movies" Scan.dbDemo0 Scan.entriesDemo).1
        Scan.entriesDemo =
      ((Scan.run_library_scan "L" "movies" Scan.dbDemo0 Scan.entriesDemo).1,
       ⟨0, 2⟩) :=
  claim_C3 "L" "movies" Scan.dbDemo0 Scan.entriesDemo (Or.inl rfl)
    (by decide) (by decide)

end Rustyfin

-- Temporary sanity checks (moved/removed in the final organisation)
example : Rustyfin.Streaming.parse_range_header "bytes=0-999" 5000 =
    Rustyfin.Streaming.RangeResult.ok 0 999 := by decide
example : Rustyfin.Streaming.parse_range_header "bytes=1000-" 5000 =
    Rustyfin.Streaming.RangeResult.ok 1000 4999 := by decide
example : Rustyfin.Streaming.parse_range_header "bytes=-500" 5000 =
    Rustyfin.Streaming.RangeResult.ok 4500 4999 := by decide
example : Rustyfin.Streaming.parse_range_header "bytes=0-99999" 5000 =
    Rustyfin.Streaming.RangeResult.ok 0 4999 := by decide
example : Rustyfin.Streaming.parse_range_header "bytes=5000-" 5000 =
    Rustyfin.Streaming.RangeResult.err := by decide
example : Rustyfin.Streaming.parse_range_header "bytes=0-100, 200-300" 5000 =
    Rustyfin.Streaming.RangeResult.err := by decide
example : Rustyfin.Streaming.parse_range_header "bytes=-0" 5000 =
    Rustyfin.Streaming.RangeResult.ok 5000 4999 := by decide
example : Rustyfin.Streaming.parse_range_header "bytes=-1" 0 =
    Rustyfin.Streaming.RangeResult.panic := by decide
example : Rustyfin.Streaming.parse_range_header "bytes=0-" 0 =
    Rustyfin.Streaming.RangeResult.panic := by decide

section DecisionExamples
open Rustyfin.Decision

example : (decide testMedia defaultCaps).method = PlayMethod.DirectPlay := by decide
example : (decide { testMedia with container := "avi" } defaultCaps).method =
    PlayMethod.Remux := by decide
example : (decide { testMedia with container := "avi" } defaultCaps).reasons =
    [TranscodeReason.ContainerNotSupported] := by decide
example :
    (decide { testMedia with
        video := some { codec := "mpeg2video", width := 1920, height := 1080,
                        bitrate_kbps := some 4000 } } defaultCaps).method =
      PlayMethod.Transcode := by decide
example :
    (decide testMedia { defaultCaps with max_bitrate_kbps := some 2000 }).reasons =
      [TranscodeReason.VideoBitrateTooHigh] := by decide
example :
    (decide testMedia { defaultCaps with max_width := some 1280,
                                         max_height := some 720 }).reasons =
      [TranscodeReason.VideoResolutionTooHigh] := by decide
end DecisionExamples

section ParserExamples
open Rustyfin.Parser

example : parse_filename "Breaking.Bad.S02E05.Episode.Title.mkv".toList =
    ParsedMedia.Episode ⟨"Breaking Bad", 2, 5, some "Episode Title"⟩ := by decide
example : parse_filename "the.office.s01e01.pilot.mp4".toList =
    ParsedMedia.Episode ⟨"the office", 1, 1, some "pilot"⟩ := by decide
example : parse_filename "Seinfeld.3x12.avi".toList =
    ParsedMedia.Episode ⟨"Seinfeld", 3, 12, none⟩ := by decide
example : parse_filename "Friends Season 2 Episode 14.mkv".toList =
    ParsedMedia.Episode ⟨"Friends", 2, 14, none⟩ := by decide
example : parse_filename "The Matrix (1999).mkv".toList =
    ParsedMedia.Movie ⟨"The Matrix", some 1999⟩ := by decide
example : parse_filename "Inception.2010.1080p.BluRay.mkv".toList =
    ParsedMedia.Movie ⟨"Inception", some 2010⟩ := by decide
example : parse_filename "Some Random Movie.mp4".toList =
    ParsedMedia.Movie ⟨"Some Random Movie", none⟩ := by decide
example : parse_filename "Show.Name.S00E01.Special.mkv".toList =
    ParsedMedia.Episode ⟨"Show Name", 0, 1, some "Special"⟩ := by decide

example : should_ignore ".DS_Store" = true := by decide
example : should_ignore "Thumbs.db" = true := by decide
example : should_ignore "movie.nfo" = true := by decide
example : should_ignore "poster.jpg" = true := by decide
example : should_ignore "movie.mkv" = false := by decide

example : is_video_file "movie.mkv" = true := by decide
example : is_video_file "Movie.MP4" = true := by decide
example : is_video_file "ep.avi" = true := by decide
example : is_video_file "poster.jpg" = false := by decide
example : is_video_file "subs.srt" = false := by decide
-- The repository's own test (crates/scanner/tests/video_extensions.rs)
-- asserts these are recognized; the source's extension list lacks them.
example : is_video_file "d.m2ts" = false := by decide
example : is_video_file "n.vob" = false := by decide

example : extract_provider_ids "Breaking Bad [tmdb=1396] [tvdb=81189]" =
    [("tmdb", "1396"), ("tvdb", "81189")] := by decide
example : extract_provider_ids "The Matrix (1999) [imdb=tt0133093]" =
    [("imdb", "tt0133093")] := by decide
example : stripProviderTags "Breaking Bad [tmdb=1396] [tvdb=81189]" =
    "Breaking Bad" := by decide

example : try_parse_episode "Seinfeld.3x12.The.Airport".toList =
    some ⟨"Seinfeld", 3, 12, none⟩ := by decide
end ParserExamples

section ScanExamples
open Rustyfin.Scan

example :
    (run_library_scan "L" "movies" dbDemo0 entriesDemo).2 = ⟨2, 0⟩ := by decide
example :
    (run_library_scan "L" "movies"
      (run_library_scan "L" "movies" dbDemo0 entriesDemo).1 entriesDemo).2 =
    ⟨0, 2⟩ := by decide
example :
    (run_library_scan "L" "movies"
      (run_library_scan "L" "movies" dbDemo0 entriesDemo).1 entriesDemo).1 =
    (run_library_scan "L" "movies" dbDemo0 entriesDemo).1 := by decide
example :
    ((run_library_scan "L" "movies" dbDemo0 entriesDemo).1.items.map
      (fun it => (it.title, it.year))) =
    [("The Matrix", some 1999), ("Inception", some 2010)] := by decide

example :
    ((run_library_scan "L" "tv_shows" dbDemo0 tvEntriesDemo).1.items.map
      (fun it => (it.kind, it.title))) =
    [("series", "Breaking Bad"), ("season", "Season 1"), ("episode", "Pilot"),
     ("season", "Season 2"), ("episode", "Seven")] := by decide
end ScanExamples
